import Mathlib

/-!
Verification development for the anime catalog front end.
The source under study is the inline script of watch.html: video source
resolution, watch history ledger maintenance, episode list derivation and
related title selection.  All catalog values live in browser storage as
JSON text, so a small model of JavaScript JSON values and of the relevant
builtin semantics (JSON.parse, truthiness, property access, parseInt) is
set up first; the page functions are then transcribed over that model.
-/

/-- Model of a JavaScript value produced by JSON.parse, plus a NaN marker
for the result of a failed numeric coercion at runtime (JSON.parse itself
never yields it).  Numbers keep their source token: the resolver never
does arithmetic on them, it only tests truthiness and re-renders them. -/
inductive JsValue where
  | null
  | nan
  | bool (b : Bool)
  | num (tok : String)
  | str (s : String)
  | arr (elems : List JsValue)
  | obj (fields : List (String × JsValue))

/-- JSON whitespace characters (space, tab, line feed, carriage return). -/
def jsonWsChar (c : Char) : Bool :=
  c == ' ' || c == '\t' || c == '\n' || c == '\r'

/-- Drop leading JSON whitespace. -/
def skipWs : List Char → List Char
  | [] => []
  | c :: cs => if jsonWsChar c then skipWs cs else c :: cs

/-- String escape decoding for the common JSON escapes.  Unicode escapes
are not modelled; an input using them fails to parse in the model. -/
def escChar (c : Char) : Option Char :=
  match c with
  | 'n' => some '\n'
  | 'r' => some '\r'
  | 't' => some '\t'
  | '"' => some c
  | '\\' => some c
  | '/' => some c
  | _ => none

/-- Parse the body of a JSON string literal, the opening quote already
consumed; returns the decoded characters and the rest of the input. -/
def parseStrChars : List Char → Option (List Char × List Char)
  | [] => none
  | c :: cs =>
    if c == '"' then some ([], cs)
    else if c == '\\' then
      match cs with
      | [] => none
      | e :: rest =>
        match escChar e with
        | some ch => (parseStrChars rest).map (fun p => (ch :: p.1, p.2))
        | none => none
    else (parseStrChars cs).map (fun p => (c :: p.1, p.2))

/-- Longest prefix of decimal digits, with the remainder. -/
def digitSpan : List Char → List Char × List Char
  | [] => ([], [])
  | c :: cs =>
    if c.isDigit then
      let p := digitSpan cs
      (c :: p.1, p.2)
    else ([], c :: cs)

/-- Integer part of a JSON number: a lone zero, or a nonzero digit
followed by digits (JSON forbids leading zeros). -/
def parseIntPart : List Char → Option (List Char × List Char)
  | [] => none
  | c :: cs =>
    if c == '0' then some (['0'], cs)
    else if c.isDigit then
      let p := digitSpan cs
      some (c :: p.1, p.2)
    else none

/-- Optional fraction part of a JSON number. -/
def parseFracPart : List Char → List Char × List Char
  | '.' :: cs =>
    match digitSpan cs with
    | ([], _) => ([], '.' :: cs)
    | (d, r) => ('.' :: d, r)
  | cs => ([], cs)

/-- Optional exponent part of a JSON number. -/
def parseExpPart : List Char → List Char × List Char
  | c :: cs =>
    if c == 'e' || c == 'E' then
      match cs with
      | s :: cs2 =>
        if s == '+' || s == '-' then
          match digitSpan cs2 with
          | ([], _) => ([], c :: cs)
          | (d, r) => (c :: s :: d, r)
        else
          match digitSpan cs with
          | ([], _) => ([], c :: cs)
          | (d, r) => (c :: d, r)
      | [] => ([], [c])
    else ([], c :: cs)
  | [] => ([], [])

/-- Parse a JSON number token, keeping its source text. -/
def parseNumTok (cs : List Char) : Option (String × List Char) :=
  let sign : List Char × List Char :=
    match cs with
    | '-' :: r => (['-'], r)
    | r => ([], r)
  match parseIntPart sign.2 with
  | none => none
  | some (ip, r1) =>
    let f := parseFracPart r1
    let e := parseExpPart f.2
    some (String.mk (sign.1 ++ ip ++ f.1 ++ e.1), e.2)

mutual

/-- Fuel driven recursive descent parser for a JSON value.  The input is
expected to start at a non whitespace character. -/
def parseVal (fuel : Nat) (cs : List Char) : Option (JsValue × List Char) :=
  match fuel with
  | 0 => none
  | f + 1 =>
    match cs with
    | '\x7b' :: rest =>
      match skipWs rest with
      | '\x7d' :: r2 => some (.obj [], r2)
      | r2 =>
        match parseFields f r2 with
        | some (fs, r3) => some (.obj fs, r3)
        | none => none
    | '[' :: rest =>
      match skipWs rest with
      | ']' :: r2 => some (.arr [], r2)
      | r2 =>
        match parseElems f r2 with
        | some (es, r3) => some (.arr es, r3)
        | none => none
    | '"' :: rest =>
      match parseStrChars rest with
      | some (s, r) => some (.str (String.mk s), r)
      | none => none
    | 't' :: 'r' :: 'u' :: 'e' :: r => some (.bool true, r)
    | 'f' :: 'a' :: 'l' :: 's' :: 'e' :: r => some (.bool false, r)
    | 'n' :: 'u' :: 'l' :: 'l' :: r => some (.null, r)
    | other =>
      match parseNumTok other with
      | some (t, r) => some (.num t, r)
      | none => none

/-- Parse the members of a JSON object after the opening brace and any
whitespace, up to and including the closing brace. -/
def parseFields (fuel : Nat) (cs : List Char) :
    Option (List (String × JsValue) × List Char) :=
  match fuel with
  | 0 => none
  | f + 1 =>
    match cs with
    | '"' :: rest =>
      match parseStrChars rest with
      | none => none
      | some (k, r2) =>
        match skipWs r2 with
        | ':' :: r3 =>
          match parseVal f (skipWs r3) with
          | none => none
          | some (v, r4) =>
            match skipWs r4 with
            | ',' :: r5 =>
              match parseFields f (skipWs r5) with
              | some (fs, r6) => some ((String.mk k, v) :: fs, r6)
              | none => none
            | '\x7d' :: r5 => some ([(String.mk k, v)], r5)
            | _ => none
        | _ => none
    | _ => none

/-- Parse the elements of a JSON array after the opening bracket and any
whitespace, up to and including the closing bracket. -/
def parseElems (fuel : Nat) (cs : List Char) :
    Option (List JsValue × List Char) :=
  match fuel with
  | 0 => none
  | f + 1 =>
    match parseVal f cs with
    | none => none
    | some (v, r) =>
      match skipWs r with
      | ',' :: r2 =>
        match parseElems f (skipWs r2) with
        | some (es, r3) => some (v :: es, r3)
        | none => none
      | ']' :: r2 => some ([v], r2)
      | _ => none

end

/-- Model of JSON.parse: none models a thrown SyntaxError.  Every level
of nesting consumes at least one character before recursing, so a fuel of
one more than the input length never runs out on a parsable input. -/
def jsonParse (s : String) : Option JsValue :=
  match parseVal (s.length + 1) (skipWs s.data) with
  | some (v, rest) =>
    match skipWs rest with
    | [] => some v
    | _ => none
  | none => none

/-- Property lookup on a parsed object literal.  JSON.parse keeps the
last of several members with the same key, hence the reversed search. -/
def objLookup (fs : List (String × JsValue)) (k : String) : Option JsValue :=
  (fs.reverse.find? (fun p => p.1 == k)).map (fun p => p.2)

/-- Whether a JSON number token denotes a nonzero number: some digit of
its mantissa (the part before any exponent marker) is nonzero. -/
def numTokNonzero (tok : String) : Bool :=
  (tok.data.takeWhile (fun c => !(c == 'e') && !(c == 'E'))).any
    (fun c => c.isDigit && !(c == '0'))

/-- JavaScript truthiness of a value. -/
def jsTruthy : JsValue → Bool
  | .null => false
  | .nan => false
  | .bool b => b
  | .num tok => numTokNonzero tok
  | .str s => !(s == "")
  | .arr _ => true
  | .obj _ => true

/-- Truthiness of a possibly undefined value (none models undefined). -/
def jsTruthyOpt : Option JsValue → Bool
  | none => false
  | some v => jsTruthy v

/-- Property access that cannot fault: the property of an object literal,
and undefined for every other value.  Used to state hypotheses about a
value known not to be null. -/
def jsPropOk (v : JsValue) (k : String) : Option JsValue :=
  match v with
  | .obj fs => objLookup fs k
  | _ => none

/-- Property access as JavaScript performs it: reading a property of
undefined or of null throws a TypeError (the error case); every other
value is boxed and yields the property or undefined. -/
def jsProp (v : Option JsValue) (k : String) : Except Unit (Option JsValue) :=
  match v with
  | none => .error ()
  | some .null => .error ()
  | some w => .ok (jsPropOk w k)

/-- Strict equality of a possibly undefined value with a string literal,
as in the comparisons of the resolver: true exactly for the same string. -/
def jsStrictEqStr (v : Option JsValue) (s : String) : Bool :=
  match v with
  | some (.str t) => t == s
  | _ => false

/-- String conversion of a value, as used by template literal splicing.
Array and object conversions are the usual JavaScript renderings; number
tokens are spliced as written, which agrees with JavaScript on the plain
integer tokens stored by this application. -/
def jsValueToString : JsValue → String
  | .null => "null"
  | .nan => "NaN"
  | .bool true => "true"
  | .bool false => "false"
  | .num tok => tok
  | .str s => s
  | .arr es => String.intercalate "," (es.attach.map (fun p => jsValueToString p.1))
  | .obj _ => "[object Object]"
decreasing_by
  have h := List.sizeOf_lt_of_mem p.2
  simp only [JsValue.arr.sizeOf_spec]
  omega

/-- Template literal splicing of a possibly undefined value. -/
def jsTemplate : Option JsValue → String
  | none => "undefined"
  | some v => jsValueToString v

/-- Numeric value of a list of decimal digits. -/
def digitsToNat (ds : List Char) : Nat :=
  ds.foldl (fun acc c => acc * 10 + (c.toNat - '0'.toNat)) 0

/-- Value of the leading digits of the input, none when the first
character is not a digit. -/
def leadingDigits (cs : List Char) : Option Nat :=
  match digitSpan cs with
  | ([], _) => none
  | (ds, _) => some (digitsToNat ds)

/-- Model of parseInt on a string: skip whitespace, read an optional
sign and then leading decimal digits; none models NaN. -/
def parseIntStr (s : String) : Option Int :=
  match s.data.dropWhile jsonWsChar with
  | '-' :: rest => (leadingDigits rest).map (fun n => -(n : Int))
  | '+' :: rest => (leadingDigits rest).map (fun n => (n : Int))
  | rest => (leadingDigits rest).map (fun n => (n : Int))

/-- Model of parseInt applied to a stored value: strings and numbers are
read through their text, every other shape coerces to NaN.  Exponent
carrying number tokens are not renormalised first, which agrees with
JavaScript on the plain integer tokens stored by this application. -/
def jsParseInt : JsValue → Option Int
  | .num tok => parseIntStr tok
  | .str s => parseIntStr s
  | _ => none

/-- Model of parseInt as a value producer: the parsed integer as a
number value, or NaN. -/
def jsParseIntVal (s : String) : JsValue :=
  match parseIntStr s with
  | some n => .num (toString n)
  | none => .nan

/-- Whether a value is an integer number (a number token free of any
fraction or exponent marker). -/
def isIntegerValue : JsValue → Bool
  | .num tok => !(tok.data.contains '.') && !(tok.data.contains 'e') && !(tok.data.contains 'E')
  | _ => false

/-- Whether the pattern occurs as a prefix of some suffix of the text,
the semantics of the includes test on strings. -/
def charsContain (pat : List Char) : List Char → Bool
  | [] => pat.isEmpty
  | c :: rest => List.isPrefixOf pat (c :: rest) || charsContain pat rest

/-- Substring occurrence test, modelling the includes method. -/
def strContainsSub (s pat : String) : Bool :=
  charsContain pat.data s.data

/-- Renderable outcome of the video source resolver: one constructor per
innerHTML assignment site of the resolution code in watch.html, plus the
outcome in which no assignment happens at all and the player keeps its
prior loading placeholder. -/
inductive Render where
  | iframeEmbed (iframeSrc : Option JsValue)
  | rawEmbed (embedCode : Option JsValue)
  | providerEmbed (dataId : Option JsValue)
  | largeFile (fileInfo : Option JsValue)
  | rawIframeString (markup : String)
  | directVideo (url : String)
  | noVideoPlaceholder
  | untouched

/-- Fixed base of the synthesized bigcommand iframe source. -/
def bigcommandBase : String := "https://adilo.bigcommand.com/watch/"

/-- Source attribute of the iframe rendered for an outcome, when one is
rendered: the spliced iframeSrc for an iframe embed, and the fixed base
followed by the spliced dataId for a bigcommand embed. -/
def renderedIframeSrc : Render → Option String
  | .iframeEmbed ifs => some (jsTemplate ifs)
  | .providerEmbed d => some (bigcommandBase ++ jsTemplate d)
  | _ => none

/-- Body of the try block of the resolver: classify a successfully parsed
video descriptor.  Property reads go through jsProp, so reading off a
null value (or off undefined, as with the size of a missing fileInfo)
propagates the TypeError to the catch handler. -/
def tryResolve (videoData : JsValue) : Except Unit Render := do
  let ty ← jsProp (some videoData) "type"
  if jsStrictEqStr ty "embed" then do
    let provider ← jsProp (some videoData) "provider"
    if jsStrictEqStr provider "iframe" then do
      let ifs ← jsProp (some videoData) "iframeSrc"
      if jsTruthyOpt ifs then
        pure (.iframeEmbed ifs)
      else do
        let ec ← jsProp (some videoData) "embedCode"
        pure (.rawEmbed ec)
    else if jsStrictEqStr provider "bigcommand" then do
      let d ← jsProp (some videoData) "dataId"
      pure (.providerEmbed d)
    else do
      let ec ← jsProp (some videoData) "embedCode"
      pure (.rawEmbed ec)
  else if jsStrictEqStr ty "file" then do
    let fi ← jsProp (some videoData) "fileInfo"
    let _sz ← jsProp fi "size"
    let _nm ← jsProp fi "name"
    pure (.largeFile fi)
  else
    pure .untouched

/-- Catch handler of the resolver: a raw string holding both an opening
and a closing iframe tag is injected verbatim, anything else becomes the
source of a native video element. -/
def rawFallback (videoUrl : String) : Render :=
  if strContainsSub videoUrl "<iframe" && strContainsSub videoUrl "</iframe>" then
    .rawIframeString videoUrl
  else
    .directVideo videoUrl

/-- Resolution of one nonempty video reference string: try the structured
parse, fall back to raw string handling when the parse or any property
read inside the try block throws. -/
def resolveVideoRef (videoUrl : String) : Render :=
  match jsonParse videoUrl with
  | some v =>
    match tryResolve v with
    | .ok r => r
    | .error _ => rawFallback videoUrl
  | none => rawFallback videoUrl

/-- Episode record of a title.  The episode number is kept as an integer:
the page always compares and sorts it through numeric coercion, and the
claims under study presuppose numerically well formed episode fields. -/
structure Episode where
  episode : Int
  videoUrl : Option String

/-- Catalog entry for one title.  Display only fields (title text,
description, language, thumbnail, view count) play no part in the logic
under study and are omitted; an absent episodes array is modelled as the
empty list, which the page code treats identically. -/
structure Title where
  id : String
  genre : Option String
  totalEpisodes : Option JsValue
  videoUrl : Option String
  episodes : List Episode

/-- Truthiness filter on an optional stored string: the value when it is
present and nonempty, as in the guards of the videoUrl selection. -/
def truthyStr : Option String → Option String
  | none => none
  | some u => if u == "" then none else some u

/-- Selection of the video reference to resolve: the videoUrl of the
first episode record matching the requested number when that videoUrl is
present and nonempty, else the title level videoUrl when that one is
present and nonempty. -/
def selectVideoUrl (anime : Title) (epNum : Int) : Option String :=
  let fromEp : Option String :=
    if anime.episodes.length > 0 then
      match anime.episodes.find? (fun ep => ep.episode == epNum) with
      | some ep => truthyStr ep.videoUrl
      | none => none
    else none
  match fromEp with
  | some u => some u
  | none => truthyStr anime.videoUrl

/-- Full resolution for a title and requested episode number: resolve the
selected reference, or render the empty state placeholder when no
reference is selected at either level. -/
def resolve_video (anime : Title) (epNum : Int) : Render :=
  match selectVideoUrl anime epNum with
  | some u => resolveVideoRef u
  | none => .noVideoPlaceholder

/-- Insertion of an element into a list, before the first element the
comparator does not allow it to precede. -/
def insertLe (le : α → α → Bool) (x : α) : List α → List α
  | [] => [x]
  | y :: ys => if le x y then x :: y :: ys else y :: insertLe le x ys

/-- Stable comparator driven sort, the semantics of the sort method of
arrays under a consistent comparator: the result is the unique permuted
list that is pairwise ordered by the comparator and keeps the original
relative order of comparator-equal elements. -/
def stableSort (le : α → α → Bool) : List α → List α
  | [] => []
  | x :: xs => insertLe le x (stableSort le xs)

/-- Watch history entry as persisted by addToWatchHistory.  The episode
field keeps its runtime value shape, since the two call sites pass values
of different types.  Timestamps are modelled as naturals: the page stores
ISO-8601 strings and compares their date values, and ISO-8601 ordering
agrees with the numeric time value ordering. -/
structure Entry where
  animeId : String
  episode : JsValue
  progress : Int
  lastWatched : Nat

/-- Index of the first element satisfying the test, the semantics of the
findIndex method (with none for the -1 result). -/
def jsFindIndex (p : α → Bool) : List α → Option Nat
  | [] => none
  | x :: xs => if p x then some 0 else (jsFindIndex p xs).map (fun i => i + 1)

/-- Pure ledger update of addToWatchHistory: replace the entry of the
same animeId in place when one exists, else append; then sort by date
descending and keep the first 20. -/
def update_history (history : List Entry) (animeId : String)
    (episode : JsValue) (progress : Int) (now : Nat) : List Entry :=
  let newEntry : Entry := ⟨animeId, episode, progress, now⟩
  let updated : List Entry :=
    match jsFindIndex (fun e => e.animeId == animeId) history with
    | some i => history.set i newEntry
    | none => history ++ [newEntry]
  (stableSort (fun a b => decide (b.lastWatched ≤ a.lastWatched)) updated).take 20

/-- Natural number reading of a stored timestamp value. -/
def decodeNat (v : JsValue) : Option Nat :=
  match v with
  | .num tok =>
    match parseIntStr tok with
    | some n => if n < 0 then none else some n.toNat
    | none => none
  | _ => none

/-- Decoding of one stored history entry.  The page itself never
validates shapes; restricting the model to well formed entries only
narrows which stored inputs the positive theorems speak about. -/
def decodeEntry (v : JsValue) : Option Entry :=
  match v with
  | .obj fs =>
    match objLookup fs "animeId" with
    | some (.str aid) =>
      match objLookup fs "episode" with
      | some ep =>
        match objLookup fs "progress" with
        | some (.num ptok) =>
          match parseIntStr ptok with
          | some pr =>
            match objLookup fs "lastWatched" with
            | some lwv =>
              match decodeNat lwv with
              | some lw => some ⟨aid, ep, pr, lw⟩
              | none => none
            | none => none
          | none => none
        | _ => none
      | none => none
    | _ => none
  | _ => none

/-- Decoding of the whole stored history document.  A parsed value that
is not an array faults in the page as well, since only arrays carry the
findIndex method used next. -/
def decodeHistory (v : JsValue) : Except Unit (List Entry) :=
  match v with
  | .arr vs =>
    match vs.mapM decodeEntry with
    | some es => .ok es
    | none => .error ()
  | _ => .error ()

/-- Reading of the stored history text: an absent key (and the falsy
empty string) is replaced by the empty array text before parsing, and a
parse failure is the uncaught SyntaxError of JSON.parse. -/
def parseHistoryText (stored : Option String) : Except Unit (List Entry) :=
  let raw : String :=
    match stored with
    | some s => if s == "" then "[]" else s
    | none => "[]"
  match jsonParse raw with
  | none => .error ()
  | some v => decodeHistory v

/-- Full addToWatchHistory operation over a stored history text: read and
decode the ledger, apply the pure update, and persist the result (the
returned list).  An error is an uncaught exception, nothing persisted. -/
def record_watch (stored : Option String) (animeId : String)
    (episode : JsValue) (progress : Int) (now : Nat) : Except Unit (List Entry) :=
  (parseHistoryText stored).map
    (fun entries => update_history entries animeId episode progress now)

/-- Session start call site of addToWatchHistory: the episode argument is
the parseInt coercion of the episode request parameter. -/
def sessionStartCall (stored : Option String) (animeId : String)
    (epParam : String) (now : Nat) : Except Unit (List Entry) :=
  record_watch stored animeId (jsParseIntVal epParam) 0 now

/-- Progress tick call site of addToWatchHistory, from the timeupdate
handler: the episode argument is the raw episode request parameter, an
uncoerced string. -/
def progressTickCall (stored : Option String) (animeId : String)
    (epParam : String) (progress : Int) (now : Nat) : Except Unit (List Entry) :=
  record_watch stored animeId (.str epParam) progress now

/-- One recorded call of the ledger, for stating sequences of updates. -/
structure RecordCall where
  animeId : String
  episode : JsValue
  progress : Int
  now : Nat

/-- Fold of a sequence of ledger updates over a starting ledger. -/
def applyCalls (calls : List RecordCall) (h : List Entry) : List Entry :=
  calls.foldl (fun acc c => update_history acc c.animeId c.episode c.progress c.now) h

/-- Ledger invariant: no two entries share an animeId, and the ledger
holds at most 20 entries. -/
def HistoryInv (h : List Entry) : Prop :=
  (h.map (fun e => e.animeId)).Nodup ∧ h.length ≤ 20

/-- Integer interval from lo to hi inclusive, empty when hi is below lo,
as produced by the episode button loop. -/
def intRange (lo hi : Int) : List Int :=
  (List.range (hi - lo + 1).toNat).map (fun k => lo + (k : Int))

/-- Episode list derivation of populateEpisodesList: with a nonempty
episodes array, the episode numbers sorted ascending; otherwise the loop
from 1 to the parseInt coercion of totalEpisodes, the latter replaced by
1 first when falsy, with a NaN bound running the loop zero times. -/
def list_episodes (anime : Title) : List Int :=
  if anime.episodes.length > 0 then
    stableSort (fun a b => decide (a ≤ b)) (anime.episodes.map (fun ep => ep.episode))
  else
    let t : JsValue :=
      match anime.totalEpisodes with
      | some v => if jsTruthy v then v else .num "1"
      | none => .num "1"
    match jsParseInt t with
    | some n => intRange 1 n
    | none => []

/-- Minimum of a list of integers as Math.min computes it over a spread
argument list; the empty case is unreachable behind the nonemptiness
guard of the caller. -/
def mathMin : List Int → Int
  | [] => 0
  | x :: xs => xs.foldl min x

/-- First episode number derived for a related title: the minimum episode
number when the title has episode records, else 1. -/
def firstEp (a : Title) : Int :=
  if a.episodes.length > 0 then mathMin (a.episodes.map (fun ep => ep.episode)) else 1

/-- Related title selection of loadRelatedAnime: drop the current title,
prefer the genre matching subset when nonempty, keep the first four, and
pair each with its first episode number. -/
def related_titles (animeData : List Title) (animeId : String)
    (genre : Option String) : List (Title × Int) :=
  let relatedAnime := animeData.filter (fun a => !(a.id == animeId))
  let genreFiltered := relatedAnime.filter (fun a => a.genre == genre)
  let selected := if genreFiltered.length > 0 then genreFiltered else relatedAnime
  (selected.take 4).map (fun a => (a, firstEp a))

/-- Modelled from the words of the specification, for comparison with the
transcribed code: the first episode of a related title is the minimum
parsed episode number among its episodes, with default 1 when it has
none. -/
def firstEpSpec (a : Title) : Int :=
  ((a.episodes.map (fun ep => ep.episode)).min?).getD 1

/-- Modelled from the words of the specification, for comparison with the
transcribed code: exclude the given identifier, use the genre matching
subset of the remainder exclusively when it is nonempty and otherwise the
whole excluded complement, take the first four in stored order, and pair
each selected title with its first episode number. -/
def relatedTitlesSpec (allTitles : List Title) (excludeId : String)
    (genre : Option String) : List (Title × Int) :=
  let complement := allTitles.filter (fun a => !(a.id == excludeId))
  let matching := complement.filter (fun a => a.genre == genre)
  ((if matching.isEmpty then complement else matching).take 4).map
    (fun a => (a, firstEpSpec a))

/-- Corrected description of the episode list derived for a title with no
episode records: the loop bound is the parseInt coercion of the stored
totalEpisodes after the falsy default, so an absent or falsy value yields
the single episode 1, a truthy value parsing to n yields 1..n, and a
truthy value with no leading digits yields an empty list. -/
def listEpisodesNoEpsSpec (t : Option JsValue) : List Int :=
  match t with
  | none => intRange 1 1
  | some v =>
    if jsTruthy v then
      match jsParseInt v with
      | some n => intRange 1 n
      | none => []
    else intRange 1 1

/-- Concrete title whose video reference parses as a descriptor of an
unknown type. -/
def titleOtherType : Title :=
  ⟨"t2", none, none, some "\x7b\"type\":\"other\"\x7d", []⟩

/-- Concrete title with no video reference at any level. -/
def titleNoVideo : Title := ⟨"t3", none, none, none, []⟩

/-- Concrete title with duplicated and unsorted episode numbers. -/
def titleDupEps : Title :=
  ⟨"t7", none, none, none, [⟨3, none⟩, ⟨1, none⟩, ⟨3, none⟩]⟩

/-- Concrete title with a truthy, non numeric totalEpisodes value. -/
def titleAbcTotal : Title := ⟨"t4", none, some (.str "abc"), none, []⟩

/-- Concrete title with no episodes and a numeric totalEpisodes. -/
def titleNumTotal : Title := ⟨"t5", none, some (.num "3"), none, []⟩

/-- Concrete title carrying both an episode level and a title level
video reference. -/
def titleEpUrl : Title :=
  ⟨"t6", none, none, some "title.mp4", [⟨1, some "ep1.mp4"⟩, ⟨2, none⟩]⟩

theorem insertLe_perm (le : α → α → Bool) (x : α) (l : List α) :
    (insertLe le x l).Perm (x :: l) := by
  induction l with
  | nil => exact List.Perm.refl _
  | cons y ys ih =>
    rw [insertLe]
    by_cases h : le x y = true
    · rw [if_pos h]
    · rw [if_neg h]
      exact (ih.cons y).trans (List.Perm.swap x y ys)

theorem stableSort_perm (le : α → α → Bool) (l : List α) :
    (stableSort le l).Perm l := by
  induction l with
  | nil => exact List.Perm.refl _
  | cons x xs ih =>
    exact (insertLe_perm le x (stableSort le xs)).trans (ih.cons x)

theorem mem_insertLe (le : α → α → Bool) (x a : α) (l : List α) :
    a ∈ insertLe le x l ↔ a = x ∨ a ∈ l := by
  rw [(insertLe_perm le x l).mem_iff, List.mem_cons]

theorem insertLe_pairwise (le : α → α → Bool)
    (htrans : ∀ a b c, le a b = true → le b c = true → le a c = true)
    (htot : ∀ a b, le a b = true ∨ le b a = true) (x : α) (l : List α)
    (hl : l.Pairwise (fun a b => le a b = true)) :
    (insertLe le x l).Pairwise (fun a b => le a b = true) := by
  induction l with
  | nil => simp [insertLe]
  | cons y ys ih =>
    rcases List.pairwise_cons.mp hl with ⟨hy, hys⟩
    rw [insertLe]
    by_cases h : le x y = true
    · rw [if_pos h]
      refine List.pairwise_cons.mpr ⟨?_, hl⟩
      intro z hz
      rcases List.mem_cons.mp hz with rfl | hz2
      · exact h
      · exact htrans x y z h (hy z hz2)
    · rw [if_neg h]
      refine List.pairwise_cons.mpr ⟨?_, ih hys⟩
      intro z hz
      rcases (mem_insertLe le x z ys).mp hz with rfl | hz2
      · rcases htot y z with hyx | hxy2
        · exact hyx
        · exact absurd hxy2 h
      · exact hy z hz2

theorem stableSort_pairwise (le : α → α → Bool)
    (htrans : ∀ a b c, le a b = true → le b c = true → le a c = true)
    (htot : ∀ a b, le a b = true ∨ le b a = true) (l : List α) :
    (stableSort le l).Pairwise (fun a b => le a b = true) := by
  induction l with
  | nil => simp [stableSort]
  | cons x xs ih => exact insertLe_pairwise le htrans htot x (stableSort le xs) ih

theorem except_bind_ok (a : α) (f : α → Except ε β) :
    (Except.ok a >>= f : Except ε β) = f a := rfl

theorem jsStrictEqStr_eq_true_iff (v : Option JsValue) (s : String) :
    jsStrictEqStr v s = true ↔ v = some (.str s) := by
  cases v with
  | none => simp [jsStrictEqStr]
  | some w =>
    cases w <;> simp [jsStrictEqStr]

theorem jsStrictEqStr_false_of_ne (v : Option JsValue) (s : String)
    (h : v ≠ some (.str s)) : jsStrictEqStr v s = false := by
  cases hb : jsStrictEqStr v s
  · rfl
  · exact absurd ((jsStrictEqStr_eq_true_iff v s).mp hb) h

theorem jsProp_of_ne_null (v : JsValue) (h : v ≠ .null) (k : String) :
    jsProp (some v) k = .ok (jsPropOk v k) := by
  cases v with
  | null => exact absurd rfl h
  | nan => rfl
  | bool b => rfl
  | num tok => rfl
  | str s => rfl
  | arr es => rfl
  | obj fs => rfl

theorem tryResolve_untouched (v : JsValue) (hnn : v ≠ .null)
    (hne : jsPropOk v "type" ≠ some (.str "embed"))
    (hnf : jsPropOk v "type" ≠ some (.str "file")) :
    tryResolve v = .ok .untouched := by
  unfold tryResolve
  rw [jsProp_of_ne_null v hnn]
  simp only [except_bind_ok, jsStrictEqStr_false_of_ne _ _ hne,
    jsStrictEqStr_false_of_ne _ _ hnf, Bool.false_eq_true, if_false]
  rfl

/-- Claim C10 counterexample: the string null is valid JSON whose parsed
value is not an object carrying a type of embed or file, yet the resolver
renders it as a direct video: the property read on the parsed null throws
and the catch handler treats the raw string as a plain video URL. -/
theorem claim10_counterexample :
    jsonParse "null" = some JsValue.null ∧
    jsPropOk JsValue.null "type" = none ∧
    resolveVideoRef "null" = .directVideo "null" :=
  ⟨rfl, rfl, rfl⟩

theorem resolveVideoRef_untouched (s : String) (v : JsValue)
    (hp : jsonParse s = some v) (hnn : v ≠ .null)
    (hne : jsPropOk v "type" ≠ some (.str "embed"))
    (hnf : jsPropOk v "type" ≠ some (.str "file")) :
    resolveVideoRef s = .untouched := by
  unfold resolveVideoRef
  rw [hp]
  simp only [tryResolve_untouched v hnn hne hnf]

/-- Claim C10 amended: for every video reference string that is valid
JSON with a parsed value other than null whose type property is neither
embed nor file, the structured branch completes without rendering: the
outcome is untouched, never a direct video. -/
theorem claim10_amended (s : String) (v : JsValue) (hp : jsonParse s = some v)
    (hnn : v ≠ .null)
    (hne : jsPropOk v "type" ≠ some (.str "embed"))
    (hnf : jsPropOk v "type" ≠ some (.str "file")) :
    resolveVideoRef s = .untouched :=
  resolveVideoRef_untouched s v hp hnn hne hnf

/-- Claim C10 witness: the plain string 123 parses as the number 123 and
is left unresolved, not played as a direct video. -/
theorem claim10_witness :
    jsonParse "123" = some (JsValue.num "123") ∧
    resolveVideoRef "123" = .untouched :=
  ⟨rfl, claim10_amended "123" (.num "123") rfl
    (fun h => JsValue.noConfusion h)
    (fun h => Option.noConfusion h)
    (fun h => Option.noConfusion h)⟩

/-- Claim C3 counterexample: a descriptor with an unknown type leaves the
player untouched, which is not the empty state placeholder rendered when
no video reference is present, so the two renderings differ. -/
theorem claim3_counterexample :
    resolve_video titleOtherType 1 = .untouched ∧
    resolve_video titleNoVideo 1 = .noVideoPlaceholder ∧
    Render.untouched ≠ Render.noVideoPlaceholder :=
  ⟨rfl, rfl, fun h => Render.noConfusion h⟩

/-- Claim C3 amended: a video reference that parses as an object whose
type is neither embed nor file is treated as unresolved in the sense that
no renderable descriptor is produced at all: the player keeps its prior
content instead of receiving the empty state placeholder. -/
theorem claim3_amended (anime : Title) (epNum : Int) (u : String)
    (fs : List (String × JsValue))
    (hsel : selectVideoUrl anime epNum = some u)
    (hp : jsonParse u = some (.obj fs))
    (hne : objLookup fs "type" ≠ some (.str "embed"))
    (hnf : objLookup fs "type" ≠ some (.str "file")) :
    resolve_video anime epNum = .untouched := by
  unfold resolve_video
  rw [hsel]
  exact resolveVideoRef_untouched u (.obj fs) hp (fun h => JsValue.noConfusion h) hne hnf

/-- Claim C3 witness: the unknown type descriptor of the concrete title
is selected and leaves the player untouched. -/
theorem claim3_witness :
    selectVideoUrl titleOtherType 1 = some "\x7b\"type\":\"other\"\x7d" ∧
    resolve_video titleOtherType 1 = .untouched := by
  refine ⟨rfl, ?_⟩
  refine claim3_amended titleOtherType 1 "\x7b\"type\":\"other\"\x7d"
    [("type", .str "other")] rfl rfl ?_ ?_
  · intro h
    simp only [show objLookup [("type", JsValue.str "other")] "type" =
      some (JsValue.str "other") from rfl, Option.some.injEq,
      JsValue.str.injEq] at h
    exact absurd h (by decide)
  · intro h
    simp only [show objLookup [("type", JsValue.str "other")] "type" =
      some (JsValue.str "other") from rfl, Option.some.injEq,
      JsValue.str.injEq] at h
    exact absurd h (by decide)

/-- Claim C9 evidence: a progress tick persists the raw request string as
the episode field, while the session start call site coerces the same
parameter through parseInt and persists an integer number. -/
theorem claim9_tick_episode_is_string :
    progressTickCall none "t1" "3" 42 7 = .ok [⟨"t1", .str "3", 42, 7⟩] ∧
    isIntegerValue (.str "3") = false ∧
    sessionStartCall none "t1" "3" 7 = .ok [⟨"t1", .num "3", 0, 7⟩] ∧
    isIntegerValue (.num "3") = true :=
  ⟨rfl, rfl, rfl, rfl⟩

theorem tryResolve_bigcommand (fs : List (String × JsValue))
    (ht : objLookup fs "type" = some (.str "embed"))
    (hpr : objLookup fs "provider" = some (.str "bigcommand")) :
    tryResolve (.obj fs) = .ok (.providerEmbed (objLookup fs "dataId")) := by
  unfold tryResolve
  simp only [show ∀ k, jsProp (some (JsValue.obj fs)) k = .ok (objLookup fs k)
    from fun k => rfl, ht, hpr, except_bind_ok]
  simp only [show jsStrictEqStr (some (JsValue.str "embed")) "embed" = true from rfl,
    show jsStrictEqStr (some (JsValue.str "bigcommand")) "iframe" = false from rfl,
    show jsStrictEqStr (some (JsValue.str "bigcommand")) "bigcommand" = true from rfl,
    if_true, Bool.false_eq_true, if_false]
  rfl

/-- Claim C2: a video reference parsing as an object of type embed with
provider bigcommand resolves to a provider embed carrying the dataId of
the descriptor, and the rendered iframe source is the fixed base URL
followed by that dataId. -/
theorem claim2_bigcommand (s : String) (fs : List (String × JsValue)) (d : String)
    (hp : jsonParse s = some (.obj fs))
    (ht : objLookup fs "type" = some (.str "embed"))
    (hpr : objLookup fs "provider" = some (.str "bigcommand"))
    (hd : objLookup fs "dataId" = some (.str d)) :
    resolveVideoRef s = .providerEmbed (some (.str d)) ∧
    renderedIframeSrc (resolveVideoRef s) = some (bigcommandBase ++ d) := by
  have hres : resolveVideoRef s = .providerEmbed (some (.str d)) := by
    unfold resolveVideoRef
    rw [hp]
    simp only [tryResolve_bigcommand fs ht hpr, hd]
  exact ⟨hres, by rw [hres]; simp [renderedIframeSrc, jsTemplate, jsValueToString]⟩

/-- Claim C2 witness: the concrete bigcommand descriptor of the
specification example yields the provider embed for dataId xyz123 and an
iframe source of the base URL followed by xyz123. -/
theorem claim2_witness :
    jsonParse "\x7b\"type\":\"embed\",\"provider\":\"bigcommand\",\"dataId\":\"xyz123\"\x7d" =
      some (.obj [("type", .str "embed"), ("provider", .str "bigcommand"),
        ("dataId", .str "xyz123")]) ∧
    resolveVideoRef "\x7b\"type\":\"embed\",\"provider\":\"bigcommand\",\"dataId\":\"xyz123\"\x7d" =
      .providerEmbed (some (.str "xyz123")) ∧
    renderedIframeSrc (resolveVideoRef
      "\x7b\"type\":\"embed\",\"provider\":\"bigcommand\",\"dataId\":\"xyz123\"\x7d") =
      some (bigcommandBase ++ "xyz123") := by
  have h := claim2_bigcommand
    "\x7b\"type\":\"embed\",\"provider\":\"bigcommand\",\"dataId\":\"xyz123\"\x7d"
    [("type", .str "embed"), ("provider", .str "bigcommand"), ("dataId", .str "xyz123")]
    "xyz123" rfl rfl rfl rfl
  exact ⟨rfl, h.1, h.2⟩

theorem intLe_trans (a b c : Int) (h1 : decide (a ≤ b) = true)
    (h2 : decide (b ≤ c) = true) : decide (a ≤ c) = true := by
  simp only [decide_eq_true_eq] at *
  omega

theorem intLe_total (a b : Int) :
    decide (a ≤ b) = true ∨ decide (b ≤ a) = true := by
  simp only [decide_eq_true_eq]
  exact Int.le_total a b

/-- Claim C5: for a title with a nonempty episodes list the derived
episode list has the same length as the episodes list (duplicates are
passed through) and is sorted ascending by episode number. -/
theorem claim5_episode_list (anime : Title) (hne : anime.episodes ≠ []) :
    (list_episodes anime).length = anime.episodes.length ∧
    List.Sorted (fun a b : Int => a ≤ b) (list_episodes anime) := by
  have hpos : anime.episodes.length > 0 := List.length_pos.mpr hne
  unfold list_episodes
  rw [if_pos hpos]
  constructor
  · rw [(stableSort_perm _ _).length_eq, List.length_map]
  · have hp := stableSort_pairwise (fun a b : Int => decide (a ≤ b))
      intLe_trans intLe_total (anime.episodes.map (fun ep => ep.episode))
    exact hp.imp (fun h => by simpa using h)

/-- Claim C5 witness: the concrete title with episode numbers 3, 1, 3
keeps length three and is emitted in ascending order. -/
theorem claim5_witness :
    titleDupEps.episodes ≠ [] ∧
    (list_episodes titleDupEps).length = titleDupEps.episodes.length ∧
    List.Sorted (fun a b : Int => a ≤ b) (list_episodes titleDupEps) := by
  have h := claim5_episode_list titleDupEps (by simp [titleDupEps])
  exact ⟨by simp [titleDupEps], h.1, h.2⟩

/-- Claim C6 counterexample: with no episodes and the non numeric
totalEpisodes value abc the page derives an empty episode list, not the
single default episode 1 the claim promises for non numeric values. -/
theorem claim6_counterexample :
    list_episodes titleAbcTotal = [] ∧
    list_episodes titleAbcTotal ≠ intRange 1 1 :=
  ⟨rfl, by decide⟩

/-- Claim C6 amended: for a title with no episodes the derived list is
1..n where n is the parseInt coercion of totalEpisodes after the falsy
default: an absent or falsy value gives the single episode 1, a truthy
value parsing to n gives 1..n, and a truthy non numeric value gives an
empty list because the loop bound is NaN. -/
theorem claim6_amended (anime : Title) (h : anime.episodes = []) :
    list_episodes anime = listEpisodesNoEpsSpec anime.totalEpisodes := by
  unfold list_episodes listEpisodesNoEpsSpec
  rw [h]
  rw [if_neg (by simp)]
  cases anime.totalEpisodes with
  | none => rfl
  | some v =>
    by_cases hv : jsTruthy v = true
    · dsimp only
      rw [if_pos hv, if_pos hv]
    · dsimp only
      rw [if_neg hv, if_neg hv]
      rfl

/-- Claim C6 witness: the concrete title with totalEpisodes 3 and no
episode records derives the list 1, 2, 3 as the amended claim states. -/
theorem claim6_witness :
    titleNumTotal.episodes = [] ∧
    list_episodes titleNumTotal = listEpisodesNoEpsSpec titleNumTotal.totalEpisodes :=
  ⟨rfl, claim6_amended titleNumTotal rfl⟩

theorem if_length_pos_eq (l alt : List α) :
    (if l.length > 0 then l else alt) = (if l.isEmpty then alt else l) := by
  cases l <;> simp

theorem firstEp_eq_spec (a : Title) : firstEp a = firstEpSpec a := by
  unfold firstEp firstEpSpec
  cases h : a.episodes with
  | nil => rfl
  | cons e es =>
    rw [if_pos (by simp)]
    rfl

/-- Claim C8: the related title selection of the page equals the
selection described by the specification: drop the excluded identifier,
prefer the nonempty genre matching subset, truncate to the first four in
stored order, and pair each title with its first episode number (the
minimum episode number, default 1 with no episodes). -/
theorem claim8_related_titles (allTitles : List Title) (excludeId : String)
    (genre : Option String) :
    related_titles allTitles excludeId genre =
      relatedTitlesSpec allTitles excludeId genre := by
  unfold related_titles relatedTitlesSpec
  dsimp only
  rw [if_length_pos_eq]
  simp only [firstEp_eq_spec]

theorem find_first_match {p : α → Bool} {l : List α} {e : α}
    (hmem : e ∈ l) (hpe : p e = true) (huniq : (l.filter p).length ≤ 1) :
    l.find? p = some e := by
  induction l with
  | nil => cases hmem
  | cons x xs ih =>
    by_cases hx : p x = true
    · rw [List.find?_cons_of_pos _ hx]
      rcases List.mem_cons.mp hmem with rfl | hm2
      · rfl
      · exfalso
        have hmf : e ∈ xs.filter p := List.mem_filter.mpr ⟨hm2, hpe⟩
        rw [List.filter_cons_of_pos hx] at huniq
        have hzero : (xs.filter p).length = 0 := by
          simp only [List.length_cons] at huniq
          omega
        rw [List.length_eq_zero.mp hzero] at hmf
        cases hmf
    · rw [List.find?_cons_of_neg _ hx]
      apply ih
      · rcases List.mem_cons.mp hmem with rfl | hm2
        · exact absurd hpe hx
        · exact hm2
      · rwa [List.filter_cons_of_neg hx] at huniq

/-- Claim C1: when at most one episode record matches the requested
number, a matching record with a present nonempty videoUrl is the one
the resolver selects, and the title level videoUrl (filtered through the
same truthiness guard) is selected exactly when no matching record has a
nonempty videoUrl. -/
theorem claim1_episode_precedence (anime : Title) (epNum : Int)
    (huniq : (anime.episodes.filter (fun ep => ep.episode == epNum)).length ≤ 1) :
    (∀ ep ∈ anime.episodes, ep.episode = epNum →
      ∀ u, ep.videoUrl = some u → u ≠ "" →
        selectVideoUrl anime epNum = some u) ∧
    ((∀ ep ∈ anime.episodes, ep.episode = epNum →
      ∀ u, ep.videoUrl = some u → u = "") →
        selectVideoUrl anime epNum = truthyStr anime.videoUrl) := by
  constructor
  · intro ep hmem heq u hu hne
    have hpos : anime.episodes.length > 0 :=
      List.length_pos.mpr (by intro h0; rw [h0] at hmem; cases hmem)
    have hfind : anime.episodes.find? (fun e => e.episode == epNum) = some ep :=
      find_first_match hmem (by simp [heq]) huniq
    have hts : truthyStr ep.videoUrl = some u := by
      rw [hu]
      simp [truthyStr, hne]
    unfold selectVideoUrl
    dsimp only
    rw [if_pos hpos, hfind]
    simp only [hts]
  · intro hall
    unfold selectVideoUrl
    dsimp only
    by_cases hpos : anime.episodes.length > 0
    · rw [if_pos hpos]
      cases hfind : anime.episodes.find? (fun e => e.episode == epNum) with
      | none => rfl
      | some ep0 =>
        have hpe := List.find?_some hfind
        have hmem := List.mem_of_find?_eq_some hfind
        have hnone : truthyStr ep0.videoUrl = none := by
          cases hv : ep0.videoUrl with
          | none => rfl
          | some u =>
            have hu0 : u = "" := hall ep0 hmem (by simpa using hpe) u hv
            subst hu0
            rfl
        simp only [hnone]
    · rw [if_neg hpos]

/-- Claim C1 witness: episode 1 of the concrete title resolves its own
videoUrl, and episode 2, whose record has none, falls back to the title
level videoUrl. -/
theorem claim1_witness :
    (titleEpUrl.episodes.filter (fun ep => ep.episode == (1 : Int))).length ≤ 1 ∧
    selectVideoUrl titleEpUrl 1 = some "ep1.mp4" ∧
    selectVideoUrl titleEpUrl 2 = truthyStr titleEpUrl.videoUrl := by
  refine ⟨by decide, ?_, ?_⟩
  · exact (claim1_episode_precedence titleEpUrl 1 (by decide)).1
      ⟨1, some "ep1.mp4"⟩ (List.mem_cons_self _ _) rfl "ep1.mp4" rfl (by decide)
  · refine (claim1_episode_precedence titleEpUrl 2 (by decide)).2 ?_
    intro ep hmem heq u hu
    rcases List.mem_cons.mp hmem with rfl | hm2
    · exact absurd heq (by decide)
    · rcases List.mem_cons.mp hm2 with rfl | hm3
      · exact Option.noConfusion hu
      · cases hm3

theorem jsFindIndex_none_all {p : α → Bool} {l : List α}
    (h : jsFindIndex p l = none) : ∀ x ∈ l, p x = false := by
  induction l with
  | nil => intro x hx; cases hx
  | cons y ys ih =>
    rw [jsFindIndex] at h
    by_cases hy : p y = true
    · rw [if_pos hy] at h; cases h
    · rw [if_neg hy] at h
      intro x hx
      rcases List.mem_cons.mp hx with rfl | hx2
      · exact Bool.eq_false_iff.mpr hy
      · exact ih (Option.map_eq_none'.mp h) x hx2

theorem jsFindIndex_some_set_map {l : List Entry} {aid : String} {i : Nat}
    (newE : Entry) (hnew : newE.animeId = aid)
    (h : jsFindIndex (fun e => e.animeId == aid) l = some i) :
    (l.set i newE).map (fun e => e.animeId) = l.map (fun e => e.animeId) := by
  induction l generalizing i with
  | nil => cases h
  | cons y ys ih =>
    rw [jsFindIndex] at h
    by_cases hy : (y.animeId == aid) = true
    · rw [if_pos hy] at h
      injection h with h0
      subst h0
      simp only [List.set, List.map_cons]
      rw [hnew, eq_of_beq hy]
    · rw [if_neg hy] at h
      rcases Option.map_eq_some'.mp h with ⟨j, hj, hij⟩
      subst hij
      simp only [List.set, List.map_cons]
      rw [ih hj]

theorem sortedTake_inv (updated : List Entry)
    (hu : (updated.map (fun e => e.animeId)).Nodup) :
    HistoryInv ((stableSort (fun a b => decide (b.lastWatched ≤ a.lastWatched))
      updated).take 20) := by
  constructor
  · have hperm :=
      stableSort_perm (fun a b : Entry => decide (b.lastWatched ≤ a.lastWatched)) updated
    have hnds :
        ((stableSort (fun a b : Entry => decide (b.lastWatched ≤ a.lastWatched))
          updated).map (fun e => e.animeId)).Nodup :=
      ((hperm.map (fun e => e.animeId)).symm).nodup hu
    rw [List.map_take]
    exact List.Nodup.sublist (List.take_sublist _ _) hnds
  · rw [List.length_take]
    exact min_le_left _ _

theorem update_history_inv (h : List Entry) (aid : String) (ep : JsValue)
    (pr : Int) (now : Nat) (hInv : HistoryInv h) :
    HistoryInv (update_history h aid ep pr now) := by
  obtain ⟨hnd, hlen⟩ := hInv
  unfold update_history
  dsimp only
  cases hfi : jsFindIndex (fun e => e.animeId == aid) h with
  | some i =>
    apply sortedTake_inv
    rw [jsFindIndex_some_set_map ⟨aid, ep, pr, now⟩ rfl hfi]
    exact hnd
  | none =>
    apply sortedTake_inv
    rw [List.map_append]
    rw [List.nodup_append]
    refine ⟨hnd, List.nodup_singleton _, ?_⟩
    intro x hx hx2
    rcases List.mem_singleton.mp hx2 with rfl
    rcases List.mem_map.mp hx with ⟨e, he, heq⟩
    have := jsFindIndex_none_all hfi e he
    rw [heq] at this
    simp at this

/-- Claim C4: the ledger invariant, no two entries sharing an animeId and
at most 20 entries, is preserved by every sequence of ledger updates
starting from any ledger satisfying it, in particular by every single
update and by any sequence starting from the empty ledger. -/
theorem claim4_ledger_invariant (calls : List RecordCall) (h : List Entry)
    (hInv : HistoryInv h) : HistoryInv (applyCalls calls h) := by
  induction calls generalizing h with
  | nil => exact hInv
  | cons c cs ih =>
    simp only [applyCalls, List.foldl_cons] at *
    exact ih _ (update_history_inv h c.animeId c.episode c.progress c.now hInv)

/-- Claim C4 witness: the empty ledger satisfies the invariant and two
updates of the same title starting from it keep it. -/
theorem claim4_witness :
    HistoryInv ([] : List Entry) ∧
    HistoryInv (applyCalls
      [⟨"t1", .num "1", 0, 5⟩, ⟨"t1", .num "2", 50, 6⟩] []) :=
  ⟨⟨List.nodup_nil, by simp⟩,
    claim4_ledger_invariant [⟨"t1", .num "1", 0, 5⟩, ⟨"t1", .num "2", 50, 6⟩] []
      ⟨List.nodup_nil, by simp⟩⟩

theorem jsFindIndex_lt_length {p : α → Bool} {l : List α} {i : Nat}
    (h : jsFindIndex p l = some i) : i < l.length := by
  induction l generalizing i with
  | nil => cases h
  | cons y ys ih =>
    rw [jsFindIndex] at h
    by_cases hy : p y = true
    · rw [if_pos hy] at h
      injection h with h0
      subst h0
      simp
    · rw [if_neg hy] at h
      rcases Option.map_eq_some'.mp h with ⟨j, hj, hij⟩
      subst hij
      simp only [List.length_cons]
      exact Nat.succ_lt_succ (ih hj)

theorem mem_set_self {l : List α} {i : Nat} (a : α) (hi : i < l.length) :
    a ∈ l.set i a := by
  induction l generalizing i with
  | nil => exact absurd hi (Nat.not_lt_zero i)
  | cons y ys ih =>
    cases i with
    | zero => simp [List.set]
    | succ j =>
      simp only [List.set]
      exact List.mem_cons_of_mem _ (ih (by simpa using hi))

theorem mem_of_mem_set {l : List α} {i : Nat} {a x : α} (h : x ∈ l.set i a) :
    x = a ∨ x ∈ l := by
  induction l generalizing i with
  | nil => rw [List.set] at h; cases h
  | cons y ys ih =>
    cases i with
    | zero =>
      simp only [List.set] at h
      rcases List.mem_cons.mp h with rfl | h2
      · left; rfl
      · right; exact List.mem_cons_of_mem _ h2
    | succ j =>
      simp only [List.set] at h
      rcases List.mem_cons.mp h with rfl | h2
      · right; exact List.mem_cons_self _ _
      · rcases ih h2 with h3 | h4
        · left; exact h3
        · right; exact List.mem_cons_of_mem _ h4

theorem mem_update_of_fresh (entries : List Entry) (aid : String) (ep : JsValue)
    (pr : Int) (now : Nat) (hfresh : ∀ e ∈ entries, e.lastWatched < now) :
    (⟨aid, ep, pr, now⟩ : Entry) ∈ update_history entries aid ep pr now := by
  unfold update_history
  dsimp only
  have hgen : ∀ (updated : List Entry),
      (⟨aid, ep, pr, now⟩ : Entry) ∈ updated →
      (∀ x ∈ updated, x = ⟨aid, ep, pr, now⟩ ∨ x.lastWatched < now) →
      (⟨aid, ep, pr, now⟩ : Entry) ∈
        (stableSort (fun a b => decide (b.lastWatched ≤ a.lastWatched))
          updated).take 20 := by
    intro updated hmem hall
    have hperm := stableSort_perm
      (fun a b : Entry => decide (b.lastWatched ≤ a.lastWatched)) updated
    have hmem2 : (⟨aid, ep, pr, now⟩ : Entry) ∈ stableSort
        (fun a b : Entry => decide (b.lastWatched ≤ a.lastWatched)) updated :=
      hperm.mem_iff.mpr hmem
    have hpw := stableSort_pairwise
      (fun a b : Entry => decide (b.lastWatched ≤ a.lastWatched))
      (fun a b c h1 h2 => by simp only [decide_eq_true_eq] at *; omega)
      (fun a b => by simp only [decide_eq_true_eq]; omega) updated
    cases hsorted : stableSort
        (fun a b : Entry => decide (b.lastWatched ≤ a.lastWatched)) updated with
    | nil => rw [hsorted] at hmem2; cases hmem2
    | cons a t =>
      rw [hsorted] at hmem2 hpw
      have hhead : a = ⟨aid, ep, pr, now⟩ := by
        rcases List.mem_cons.mp hmem2 with heq | hmt
        · exact heq.symm
        · have hle := (List.pairwise_cons.mp hpw).1 _ hmt
          simp only [decide_eq_true_eq] at hle
          have hamem : a ∈ updated :=
            hperm.mem_iff.mp (by rw [hsorted]; exact List.mem_cons_self _ _)
          rcases hall a hamem with heq2 | hlt
          · exact heq2
          · omega
      rw [hhead]
      rw [show (20 : Nat) = 19 + 1 from rfl, List.take_succ_cons]
      exact List.mem_cons_self _ _
  cases hfi : jsFindIndex (fun e => e.animeId == aid) entries with
  | some i =>
    apply hgen
    · exact mem_set_self _ (jsFindIndex_lt_length hfi)
    · intro x hx
      rcases mem_of_mem_set hx with rfl | hx2
      · left; rfl
      · right; exact hfresh x hx2
  | none =>
    apply hgen
    · exact List.mem_append.mpr (Or.inr (List.mem_singleton.mpr rfl))
    · intro x hx
      rcases List.mem_append.mp hx with hx1 | hx2
      · right; exact hfresh x hx1
      · left; exact List.mem_singleton.mp hx2

/-- Claim C7 counterexample: a stored history text that is not valid JSON
makes the operation fail with the uncaught parse error instead of being
recovered as an empty ledger. -/
theorem claim7_counterexample :
    record_watch (some "garbage") "t1" (.num "1") 0 5 = .error () := rfl

/-- Claim C7 amended: for an absent stored history, or one decoding to a
well formed entry array, the operation completes: it persists the pure
ledger update, and when the new timestamp is fresher than every stored
one the persisted ledger contains the newly recorded entry.  Malformed
stored text instead fails the whole operation (see the counterexample),
so the recovery the claim promises does not exist. -/
theorem claim7_amended (stored : Option String) (aid : String) (ep : JsValue)
    (pr : Int) (now : Nat) (entries : List Entry)
    (hparse : parseHistoryText stored = .ok entries)
    (hfresh : ∀ e ∈ entries, e.lastWatched < now) :
    record_watch stored aid ep pr now =
      .ok (update_history entries aid ep pr now) ∧
    (⟨aid, ep, pr, now⟩ : Entry) ∈ update_history entries aid ep pr now := by
  constructor
  · unfold record_watch
    rw [hparse]
    rfl
  · exact mem_update_of_fresh entries aid ep pr now hfresh

/-- Claim C7 witness: with no stored history the ledger is read as empty
and the recorded entry is persisted. -/
theorem claim7_witness :
    parseHistoryText none = .ok [] ∧
    record_watch none "t1" (.num "2") 0 5 =
      .ok (update_history [] "t1" (.num "2") 0 5) ∧
    (⟨"t1", .num "2", 0, 5⟩ : Entry) ∈ update_history [] "t1" (.num "2") 0 5 := by
  have h := claim7_amended none "t1" (.num "2") 0 5 [] rfl
    (by intro e he; cases he)
  exact ⟨rfl, h.1, h.2⟩
